import Mathlib

/-!
Shallow embedding of the embedded vector storage engine of the
Simple-RAG-Application repository (src/backend/utils/vector_store.py and the
document-management endpoints of src/backend/main.py), together with theorems
settling the frozen claims about it.

Conventions of the embedding:
* 32-bit floats are modelled as rationals (`ℚ`); only relative order of
  distances matters for the verified claims.
* Python dictionaries holding chunk metadata are modelled by the `Metadata`
  structure whose fields are `Option`-valued, mirroring `dict.get` returning
  `None` for an absent key.
* Fallible Python code (exceptions) is modelled with `Option`/`Except`; an
  operation that in the source mutates state before raising is modelled as a
  function that returns the (possibly unchanged) state together with the
  outcome.
* The on-disk artifacts of a collection (`<name>.index`, `<name>.pkl`) are
  modelled by `CollectionFiles`; a file is `missing`, `corrupt` (present but
  failing to deserialize), or `good` with its parsed content.
-/

/-- A stored embedding vector (Python `List[float]`, rationals here). -/
abbrev Vec := List ℚ

/-- One chunk-metadata record, as built by the `/upload` endpoint.  Fields are
`Option`-valued to mirror Python `dict.get` yielding `None` for absent keys
(`add_documents` with `metadata=None` stores dicts holding only `"text"`). -/
structure Metadata where
  document_id : Option String
  filename : Option String
  chunk_index : Option Int
  text : Option String
  collection : Option String
deriving DecidableEq, Repr, Inhabited

/-- A FAISS `IndexFlatL2`: its fixed dimension `d` and the stored vectors in
insertion order (`ntotal = vecs.length`). -/
structure IndexFlatL2 where
  d : Nat
  vecs : List Vec
deriving DecidableEq, Repr

/-- In-memory state of `VectorStore` (vector_store.py): the FAISS index and the
two parallel Python lists `metadata_store` and `document_store`. -/
structure VectorStore where
  collection_name : String
  dimension : Nat
  index : IndexFlatL2
  metadata_store : List Metadata
  document_store : List String
deriving DecidableEq, Repr

/-- State of one on-disk file: absent, present but unreadable, or readable
with parsed content `a`. -/
inductive FileState (α : Type) where
  | missing : FileState α
  | corrupt : FileState α
  | good : α → FileState α
deriving DecidableEq, Repr

/-- `os.path.exists`: the file is on disk (readable or not). -/
def FileState.isExisting {α : Type} : FileState α → Bool
  | .missing => false
  | _ => true

/-- The two durable artifacts of one collection: `<name>.index` (the serialized
FAISS index) and `<name>.pkl` (the pickled `{'metadata': …, 'documents': …}`
record). -/
structure CollectionFiles where
  indexFile : FileState IndexFlatL2
  metaFile : FileState (List Metadata × List String)
deriving DecidableEq, Repr

/-- The persist directory: collection name to that collection's artifacts.
A name not listed has no artifacts on disk. -/
abbrev Disk := List (String × CollectionFiles)

/-- Artifacts stored for `name` (both missing when the name was never saved). -/
def Disk.filesFor (disk : Disk) (name : String) : CollectionFiles :=
  ((disk.find? (fun p => p.1 == name)).map Prod.snd).getD ⟨.missing, .missing⟩

/-- `VectorStore._load_index`: if both artifact files exist and both deserialize,
use their contents; any read failure falls back to `_create_new_index` (an empty
index of dimension `dim` with empty metadata and document stores). -/
def loadIndex (dim : Nat) (f : CollectionFiles) : IndexFlatL2 × List Metadata × List String :=
  if f.indexFile.isExisting && f.metaFile.isExisting then
    match f.indexFile, f.metaFile with
    | .good idx, .good md => (idx, md.1, md.2)
    | _, _ => (⟨dim, []⟩, [], [])
  else (⟨dim, []⟩, [], [])

/-- `VectorStore.__init__`: fixes `dimension = 384` and loads (or newly
creates) the index and stores from the collection's artifacts. -/
def VectorStore.init (name : String) (disk : Disk) : VectorStore :=
  let l := loadIndex 384 (disk.filesFor name)
  ⟨name, 384, l.1, l.2.1, l.2.2⟩

/-- `VectorStore._save_index`: writes both artifacts, replacing whatever was
on disk for this collection. -/
def saveIndex (vs : VectorStore) : CollectionFiles :=
  ⟨.good vs.index, .good (vs.metadata_store, vs.document_store)⟩

/-- `VectorStore.get_collection_count`: `self.index.ntotal`. -/
def VectorStore.get_collection_count (vs : VectorStore) : Nat :=
  vs.index.vecs.length

/-- Squared L2 distance, the metric of `IndexFlatL2` (no square root). -/
def sqDist (a b : Vec) : ℚ :=
  (List.zipWith (fun x y => (x - y) * (x - y)) a b).sum

/-- Comparison used to rank search candidates: ascending squared distance,
ties broken by ascending insertion position. -/
def distRankLE (a b : ℚ × Nat) : Prop :=
  a.1 < b.1 ∨ (a.1 = b.1 ∧ a.2 ≤ b.2)

/-- Strict version of `distRankLE` (positions of genuinely distinct entries). -/
def distRankLT (a b : ℚ × Nat) : Prop :=
  a.1 < b.1 ∨ (a.1 = b.1 ∧ a.2 < b.2)

instance : DecidableRel distRankLE := fun a b =>
  inferInstanceAs (Decidable (a.1 < b.1 ∨ (a.1 = b.1 ∧ a.2 ≤ b.2)))

instance : IsTotal (ℚ × Nat) distRankLE :=
  ⟨fun a b => by
    rcases lt_trichotomy a.1 b.1 with h | h | h
    · exact Or.inl (Or.inl h)
    · rcases Nat.le_total a.2 b.2 with h2 | h2
      · exact Or.inl (Or.inr ⟨h, h2⟩)
      · exact Or.inr (Or.inr ⟨h.symm, h2⟩)
    · exact Or.inr (Or.inl h)⟩

instance : IsTrans (ℚ × Nat) distRankLE :=
  ⟨fun a b c hab hbc => by
    rcases hab with h1 | ⟨h1, h1'⟩ <;> rcases hbc with h2 | ⟨h2, h2'⟩
    · exact Or.inl (lt_trans h1 h2)
    · exact Or.inl (h2 ▸ h1)
    · exact Or.inl (h1 ▸ h2)
    · exact Or.inr ⟨h1.trans h2, h1'.trans h2'⟩⟩

/-- Every stored vector scored against the query, paired with its position. -/
def scoredOf (idx : IndexFlatL2) (q : Vec) : List (ℚ × Nat) :=
  idx.vecs.enum.map (fun p => (sqDist q p.2, p.1))

/-- Modelled from the spec: FAISS `IndexFlatL2.search` is an external library
call; §4.1 of the spec fixes its contract — up to `min(k, N)` positions ordered
by ascending squared L2 distance, ties broken by ascending position, and a
query whose dimension differs from the index's raises (returns `none` here).
`k.toNat` realizes the coercion of a non-positive `k` to zero results. -/
def IndexFlatL2.search (idx : IndexFlatL2) (q : Vec) (k : Int) :
    Option (List (ℚ × Nat)) :=
  if q.length = idx.d then
    some ((List.insertionSort distRankLE (scoredOf idx q)).take k.toNat)
  else none

/-- Sequence a fallible positional lookup over a list (a Python list
comprehension whose body may raise `IndexError`). -/
def mapOpt {α β : Type} (f : α → Option β) : List α → Option (List β)
  | [] => some []
  | a :: as =>
    match f a, mapOpt f as with
    | some b, some bs => some (b :: bs)
    | _, _ => none

/-- The dictionary returned by `VectorStore.query` (each field wraps one inner
list, as the source nests them single-element). -/
structure QueryResult where
  documents : List (List String)
  metadatas : List (List Metadata)
  distances : List (List ℚ)
deriving DecidableEq, Repr

/-- `VectorStore.query`: empty result on an empty index; otherwise clamp
`n_results` to `ntotal`, search, and project the returned positions through
`document_store` and `metadata_store` in search order.  `none` models an
exception escaping the method. -/
def VectorStore.query (vs : VectorStore) (query_embedding : Vec)
    (n_results : Int) : Option QueryResult :=
  if vs.index.vecs.length = 0 then
    some ⟨[[]], [[]], [[]]⟩
  else
    match vs.index.search query_embedding
        (min n_results (vs.index.vecs.length : Int)) with
    | none => none
    | some ranked =>
      match mapOpt (fun p => vs.document_store.get? p.2) ranked,
            mapOpt (fun p => vs.metadata_store.get? p.2) ranked with
      | some docs, some metas => some ⟨[docs], [metas], [ranked.map Prod.fst]⟩
      | _, _ => none

/-- Errors surfaced by `add_documents` (exceptions from numpy / FAISS). -/
inductive AddError where
  | numpyShapeError
  | dimensionMismatch
deriving DecidableEq, Repr

/-- `VectorStore.add_documents`: converts `embeddings` to an array and appends
it to the FAISS index, then extends `document_store` with `texts` and
`metadata_store` with `metadata` (defaulted to `{"text": …}` records when
`None`), then saves.  The source performs no batch-length validation: the three
lists are appended independently.  Failure cases are the numpy conversion of an
empty batch and a vector whose length differs from the index dimension. -/
def VectorStore.add_documents (vs : VectorStore) (texts : List String)
    (embeddings : List Vec) (metadata : Option (List Metadata))
    (ids : Option (List String)) : Except AddError (VectorStore × CollectionFiles) :=
  let _ := ids
  if embeddings = [] then .error .numpyShapeError
  else if ¬ embeddings.all (fun e => e.length = vs.index.d) then
    .error .dimensionMismatch
  else
    let md := match metadata with
      | none => texts.map (fun t =>
          { document_id := none, filename := none, chunk_index := none
            text := some t, collection := none })
      | some m => m
    let vs' : VectorStore :=
      { vs with
        index := ⟨vs.index.d, vs.index.vecs ++ embeddings⟩
        document_store := vs.document_store ++ texts
        metadata_store := vs.metadata_store ++ md }
    .ok (vs', saveIndex vs')

instance {e a : Type} [DecidableEq e] [DecidableEq a] :
    DecidableEq (Except e a) := fun x y => by
  cases x <;> cases y
  case error.error u v => exact decidable_of_iff (u = v) (by simp)
  case ok.ok u v => exact decidable_of_iff (u = v) (by simp)
  all_goals exact isFalse (by simp)

/-- `os.remove`: fails when the file is absent, otherwise leaves it missing. -/
inductive OsError where
  | fileNotFound
deriving DecidableEq, Repr

def osRemove {α : Type} (f : FileState α) : Except OsError (FileState α) :=
  match f with
  | .missing => .error .fileNotFound
  | _ => .ok .missing

/-- `VectorStore.delete_collection`: remove each artifact, but only after an
`os.path.exists` check, so an absent file is silently skipped. -/
def delete_collection (f : CollectionFiles) : Except OsError CollectionFiles := do
  let idx ← if f.indexFile.isExisting then osRemove f.indexFile else pure f.indexFile
  let md ← if f.metaFile.isExisting then osRemove f.metaFile else pure f.metaFile
  pure ⟨idx, md⟩

/-- `VectorStore._create_new_index` applied to an existing store: a fresh
empty `IndexFlatL2(self.dimension)` and cleared metadata/document stores. -/
def VectorStore.emptied (vs : VectorStore) : VectorStore :=
  { vs with index := ⟨vs.dimension, []⟩, metadata_store := [], document_store := [] }

/-- `VectorStore.reset_collection`: delete the durable artifacts, recreate an
empty index of `self.dimension` with empty stores, and persist that empty
state. -/
def reset_collection (vs : VectorStore) (f : CollectionFiles) :
    Except OsError (VectorStore × CollectionFiles) :=
  match delete_collection f with
  | .error e => .error e
  | .ok _ => .ok (vs.emptied, saveIndex vs.emptied)

/-- Errors surfaced by the `delete_document` endpoint: HTTP 404 when no chunk
of the document exists, HTTP 500 for any other exception. -/
inductive ApiError where
  | notFound
  | internal
deriving DecidableEq, Repr

/-- Positions whose metadata record's `document_id` equals `docId`
(`indices_to_delete` in the endpoint, collected by enumerating
`metadata_store`). -/
def matchingIndices (ms : List Metadata) (docId : String) : List Nat :=
  (ms.enum.filter (fun p => decide (p.2.document_id = some docId))).map Prod.fst

/-- `remaining_indices`: every position of `metadata_store` not slated for
deletion, in ascending order. -/
def remainingIndices (ms : List Metadata) (docId : String) : List Nat :=
  (List.range ms.length).filter (fun i => decide (i ∉ matchingIndices ms docId))

/-- The `DELETE /collections/{name}/documents/{id}` endpoint (main.py).  It
returns the resulting in-memory store, the resulting artifacts, and the
outcome (`ok` carries `chunks_deleted`).  Mirroring the source: a 404 is
raised before any mutation; with survivors it reconstructs each retained
vector, builds a fresh index, replaces `index` and `metadata_store`
(`document_store` is left untouched by the source), and saves; with no
survivor it resets the collection and saves again. -/
def delete_document (vs : VectorStore) (f : CollectionFiles) (docId : String) :
    VectorStore × CollectionFiles × Except ApiError Nat :=
  if vs.metadata_store = [] then (vs, f, .error .notFound)
  else if matchingIndices vs.metadata_store docId = [] then
    (vs, f, .error .notFound)
  else if remainingIndices vs.metadata_store docId = [] then
    match reset_collection vs f with
    | .ok (vs', _) =>
      (vs', saveIndex vs',
        .ok (matchingIndices vs.metadata_store docId).length)
    | .error _ => (vs, f, .error .internal)
  else
    match mapOpt (fun i => vs.index.vecs.get? i)
            (remainingIndices vs.metadata_store docId),
          mapOpt (fun i => vs.metadata_store.get? i)
            (remainingIndices vs.metadata_store docId) with
    | some remainingVectors, some remainingMetadata =>
      ({ vs with
         index := ⟨vs.index.d, remainingVectors⟩
         metadata_store := remainingMetadata },
       saveIndex { vs with
         index := ⟨vs.index.d, remainingVectors⟩
         metadata_store := remainingMetadata },
       .ok (matchingIndices vs.metadata_store docId).length)
    | _, _ => (vs, f, .error .internal)

/-- The process-wide `vector_stores` cache of main.py. -/
abbrev Registry := List (String × VectorStore)

/-- `get_vector_store`: return the cached store for `collection_name`,
constructing (and caching) one from the durable artifacts when absent. -/
def get_vector_store (reg : Registry) (disk : Disk) (name : String) :
    VectorStore × Registry :=
  match reg.find? (fun p => p.1 == name) with
  | some p => (p.2, reg)
  | none =>
    let vs := VectorStore.init name disk
    (vs, (name, vs) :: reg)

/-! ### Concrete scenario: two single-chunk documents, then delete the first

This is the execution the alignment claims are settled on: a collection whose
saved (empty) artifacts carry a 2-dimensional index — `VectorStore.__init__`
adopts whatever dimension the loaded artifact has, and every code path under
scrutiny is parametric in the dimension — then one chunk of document `d1`
(embedding `e1`), one chunk of document `d2` (embedding `e2`), then
`delete_document "d1"`. -/

def demoDisk : Disk := [("default", ⟨.good ⟨2, []⟩, .good ([], [])⟩)]

def e1 : Vec := [1, 0]

def e2 : Vec := [0, 1]

def md1 : Metadata :=
  ⟨some "d1", some "a.txt", some 0, some "t1", some "default"⟩

def md2 : Metadata :=
  ⟨some "d2", some "b.txt", some 0, some "t2", some "default"⟩

/-- Fresh collection, `add_documents` for `d1` then `d2`, then
`delete_document "d1"`; `none` if any step failed. -/
def demoRun : Option (VectorStore × CollectionFiles) :=
  match (VectorStore.init "default" demoDisk).add_documents
      ["t1"] [e1] (some [md1]) (some ["d1_chunk_0"]) with
  | .error _ => none
  | .ok (v1, _) =>
    match v1.add_documents ["t2"] [e2] (some [md2]) (some ["d2_chunk_0"]) with
    | .error _ => none
    | .ok (v2, f2) =>
      match delete_document v2 f2 "d1" with
      | (v3, f3, .ok _) => some (v3, f3)
      | _ => none

/-! ### Helper lemmas -/

theorem mapOpt_eq_some_map {α β : Type} (f : α → Option β) (g : α → β) :
    ∀ l : List α, (∀ a ∈ l, f a = some (g a)) → mapOpt f l = some (l.map g)
  | [], _ => rfl
  | a :: as, h => by
    have ha := h a (List.mem_cons_self a as)
    have has := mapOpt_eq_some_map f g as (fun x hx => h x (List.mem_cons_of_mem a hx))
    simp [mapOpt, ha, has]

theorem mapOpt_mem {α β : Type} (f : α → Option β) :
    ∀ {l : List α} {ys : List β}, mapOpt f l = some ys →
      ∀ y ∈ ys, ∃ a ∈ l, f a = some y := by
  intro l
  induction l with
  | nil =>
    intro ys h y hy
    simp only [mapOpt, Option.some.injEq] at h
    subst h
    cases hy
  | cons a as ih =>
    intro ys h y hy
    simp only [mapOpt] at h
    cases hfa : f a with
    | none => rw [hfa] at h; exact absurd h (by simp)
    | some b =>
      rw [hfa] at h
      cases hrest : mapOpt f as with
      | none => rw [hrest] at h; exact absurd h (by simp)
      | some bs =>
        rw [hrest] at h
        simp only [Option.some.injEq] at h
        subst h
        rcases List.mem_cons.mp hy with rfl | hy'
        · exact ⟨a, List.mem_cons_self a as, hfa⟩
        · obtain ⟨x, hx, hfx⟩ := ih hrest y hy'
          exact ⟨x, List.mem_cons_of_mem a hx, hfx⟩

theorem pairwise_and_of {α : Type} {R S : α → α → Prop} :
    ∀ {l : List α}, l.Pairwise R → l.Pairwise S →
      l.Pairwise (fun a b => R a b ∧ S a b) := by
  intro l
  induction l with
  | nil => intro _ _; exact List.Pairwise.nil
  | cons a as ih =>
    intro hR hS
    rcases List.pairwise_cons.mp hR with ⟨hRa, hRas⟩
    rcases List.pairwise_cons.mp hS with ⟨hSa, hSas⟩
    exact List.pairwise_cons.mpr ⟨fun b hb => ⟨hRa b hb, hSa b hb⟩, ih hRas hSas⟩

theorem mem_matchingIndices {ms : List Metadata} {docId : String} {i : Nat} :
    i ∈ matchingIndices ms docId ↔
      ∃ md, ms.get? i = some md ∧ md.document_id = some docId := by
  unfold matchingIndices
  constructor
  · intro h
    obtain ⟨⟨j, md⟩, hmem, hj⟩ := List.mem_map.mp h
    rcases List.mem_filter.mp hmem with ⟨henum, hdec⟩
    have hdoc : md.document_id = some docId := of_decide_eq_true hdec
    have hget : ms[j]? = some md := List.mk_mem_enum_iff_getElem?.mp henum
    subst hj
    exact ⟨md, by simpa [List.get?_eq_getElem?] using hget, hdoc⟩
  · rintro ⟨md, hget, hdoc⟩
    refine List.mem_map.mpr ⟨(i, md), List.mem_filter.mpr ⟨?_, by simpa using hdoc⟩, rfl⟩
    exact List.mk_mem_enum_iff_getElem?.mpr (by simpa [List.get?_eq_getElem?] using hget)

theorem delete_collection_ok (f : CollectionFiles) :
    delete_collection f = .ok ⟨.missing, .missing⟩ := by
  obtain ⟨fi, fm⟩ := f
  cases fi <;> cases fm <;> rfl

theorem reset_collection_eq (vs : VectorStore) (f : CollectionFiles) :
    reset_collection vs f = .ok (vs.emptied, saveIndex vs.emptied) := by
  simp [reset_collection, delete_collection_ok]

/-! ### Claim theorems -/

/-- C1 (code bug): the alignment invariant is broken by the code.  On the
concrete run `demoRun` (add one chunk of `d1`, add one chunk of `d2`, then
`delete_document "d1"`), the delete succeeds but leaves `count() = 1`,
`len(metadata_store) = 1` and `len(document_store) = 2`: the endpoint rebuilds
the index and `metadata_store` from the survivors while never touching
`document_store`, so the three stores are no longer the same length and
position `0` of `document_store` still holds the deleted chunk's text. -/
theorem alignment_invariant_broken_by_delete :
    demoRun.map (fun p =>
      (p.1.get_collection_count, p.1.metadata_store.length,
        p.1.document_store.length)) = some (1, 1, 2) := by
  rfl

unseal Rat.add Rat.mul Rat.sub in
/-- C2 (code bug): after deleting `d1` from `{d1, d2}`, the count is right and
the survivor's metadata is returned first at distance `0` for its own
embedding, but the returned *text* is `"t1"` — the deleted `d1` chunk's text —
because `delete_document` never rebuilds `document_store`, while the
survivor's own text is `"t2"`. -/
theorem rebuild_survivor_text_wrong :
    demoRun.map (fun p => p.1.get_collection_count) = some 1 ∧
    demoRun.bind (fun p => p.1.query e2 5) =
      some ⟨[["t1"]], [[md2]], [[(0 : ℚ)]]⟩ ∧
    md2.text = some "t2" ∧ "t1" ≠ "t2" := by
  refine ⟨rfl, by decide, rfl, by decide⟩

/-- C4 counterexample: a call to `add_documents` whose `texts`, `embeddings`
and `metadata` lengths are *not* all equal (here 0, 1 and 0) does not fail at
all — it succeeds and appends the lists independently, leaving one vector in
the index but no stored text or metadata record. -/
theorem add_documents_no_batch_length_error :
    (VectorStore.init "default" demoDisk).add_documents [] [e1] (some []) none =
      .ok ({ VectorStore.init "default" demoDisk with
             index := ⟨2, [e1]⟩ },
           ⟨.good ⟨2, [e1]⟩, .good ([], [])⟩) := by
  rfl

/-- C4 as amended: `add_documents` performs no batch-length validation.  Any
call whose embedding batch is nonempty and dimension-correct succeeds —
whatever the relative lengths of `texts`, `embeddings` and `metadata` — and
extends the index by `embeddings`, `document_store` by `texts` and
`metadata_store` by `metadata` independently, then persists. -/
theorem add_documents_appends_independently (vs : VectorStore)
    (texts : List String) (embeddings : List Vec) (metadata : List Metadata)
    (ids : Option (List String)) (hne : embeddings ≠ [])
    (hdim : ∀ e ∈ embeddings, e.length = vs.index.d) :
    vs.add_documents texts embeddings (some metadata) ids =
      .ok ({ vs with
             index := ⟨vs.index.d, vs.index.vecs ++ embeddings⟩
             document_store := vs.document_store ++ texts
             metadata_store := vs.metadata_store ++ metadata },
           saveIndex { vs with
             index := ⟨vs.index.d, vs.index.vecs ++ embeddings⟩
             document_store := vs.document_store ++ texts
             metadata_store := vs.metadata_store ++ metadata }) := by
  unfold VectorStore.add_documents
  rw [if_neg hne, if_neg (by simpa [List.all_eq_true] using hdim)]

/-- Witness for `add_documents_appends_independently`: a mismatched batch
(two texts, one embedding, no metadata records) satisfies the hypotheses and
succeeds. -/
theorem add_documents_appends_independently_witness :
    ([[(1 : ℚ), 2]] : List Vec) ≠ [] ∧
    (∀ e ∈ ([[(1 : ℚ), 2]] : List Vec),
      e.length = (⟨"w", 384, ⟨2, []⟩, [], []⟩ : VectorStore).index.d) ∧
    (⟨"w", 384, ⟨2, []⟩, [], []⟩ : VectorStore).add_documents
        ["x", "y"] [[(1 : ℚ), 2]] (some []) none =
      .ok (⟨"w", 384, ⟨2, [[(1 : ℚ), 2]]⟩, [], ["x", "y"]⟩,
           ⟨.good ⟨2, [[(1 : ℚ), 2]]⟩, .good ([], ["x", "y"])⟩) := by
  refine ⟨by decide, by decide, ?_⟩
  have h := add_documents_appends_independently
    (⟨"w", 384, ⟨2, []⟩, [], []⟩ : VectorStore)
    ["x", "y"] [[(1 : ℚ), 2]] [] none (by decide) (by decide)
  simpa using h

/-- C5: deleting a `document_id` with zero matching metadata records fails
with `NotFound`, and the in-memory store and the on-disk artifacts are
returned unchanged — nothing is mutated or persisted. -/
theorem delete_document_notfound_unchanged (vs : VectorStore)
    (f : CollectionFiles) (docId : String)
    (h : matchingIndices vs.metadata_store docId = []) :
    delete_document vs f docId = (vs, f, .error .notFound) := by
  unfold delete_document
  by_cases hms : vs.metadata_store = []
  · rw [if_pos hms]
  · rw [if_neg hms, if_pos h]

/-- Witness for `delete_document_notfound_unchanged`: deleting a document id
absent from a one-chunk collection returns `NotFound` with state intact. -/
theorem delete_document_notfound_unchanged_witness :
    matchingIndices [md2] "nope" = [] ∧
    delete_document
        (⟨"w", 384, ⟨2, [[(1 : ℚ), 1]]⟩, [md2], ["tb"]⟩ : VectorStore)
        ⟨.missing, .missing⟩ "nope" =
      (⟨"w", 384, ⟨2, [[(1 : ℚ), 1]]⟩, [md2], ["tb"]⟩, ⟨.missing, .missing⟩,
        .error .notFound) :=
  ⟨by decide,
    delete_document_notfound_unchanged _ _ "nope" (by decide)⟩

/-- C7: `query` returns the empty result dictionary — not an error — whenever
the collection holds zero entries (for any `n_results`), and likewise whenever
`n_results ≤ 0` (for a dimension-correct query embedding): the requested count
is coerced to zero results. -/
theorem query_empty_or_nonpositive_k (vs : VectorStore) (q : Vec) (k : Int)
    (h : vs.index.vecs = [] ∨ (k ≤ 0 ∧ q.length = vs.index.d)) :
    vs.query q k = some ⟨[[]], [[]], [[]]⟩ := by
  rcases h with h | ⟨hk, hq⟩
  · simp [VectorStore.query, h]
  · by_cases h0 : vs.index.vecs.length = 0
    · simp [VectorStore.query, h0]
    · have hmin : (min k (vs.index.vecs.length : Int)).toNat = 0 := by omega
      unfold VectorStore.query IndexFlatL2.search
      rw [if_neg h0]
      simp [hq, hmin, mapOpt]

/-- Witness for `query_empty_or_nonpositive_k`: an empty collection queried
with `k = 5`, and a one-entry collection queried with `k = -1`, both return
the empty result dictionary. -/
theorem query_empty_or_nonpositive_k_witness :
    (⟨"w", 384, ⟨2, []⟩, [], []⟩ : VectorStore).query [1, 1] 5 =
      some ⟨[[]], [[]], [[]]⟩ ∧
    (⟨"w", 384, ⟨2, [[1, 1]]⟩, [md2], ["tb"]⟩ : VectorStore).query
        [1, 1] (-1) = some ⟨[[]], [[]], [[]]⟩ :=
  ⟨query_empty_or_nonpositive_k _ _ _ (Or.inl rfl),
   query_empty_or_nonpositive_k _ _ _ (Or.inr ⟨by decide, by decide⟩)⟩

/-- C8: `reset_collection` deletes the durable artifacts, reinitializes an
empty index/metadata/document state, and persists that empty state; run twice
in a row it leaves the collection empty both times, the second call succeeds
(no error), and returns the very same empty state. -/
theorem reset_collection_idempotent (vs : VectorStore) (f : CollectionFiles) :
    reset_collection vs f = .ok (vs.emptied, saveIndex vs.emptied) ∧
    vs.emptied.get_collection_count = 0 ∧
    (saveIndex vs.emptied).indexFile = .good ⟨vs.dimension, []⟩ ∧
    (saveIndex vs.emptied).metaFile = .good ([], []) ∧
    reset_collection vs.emptied (saveIndex vs.emptied) =
      .ok (vs.emptied, saveIndex vs.emptied) := by
  refine ⟨reset_collection_eq vs f, rfl, rfl, rfl, ?_⟩
  have h := reset_collection_eq vs.emptied (saveIndex vs.emptied)
  simpa [VectorStore.emptied] using h

/-- C9: `get_vector_store` returns the cached store when one is present and
leaves the cache unchanged; otherwise it constructs the store by loading the
collection's durable artifacts (the empty fallback included), caches it, and
returns it; it never fails — in particular a name with no artifacts yields an
empty collection — and a second call with the same name returns the same
cached store and the same cache. -/
theorem get_vector_store_spec (reg : Registry) (disk : Disk) (name : String) :
    get_vector_store (get_vector_store reg disk name).2 disk name =
      ((get_vector_store reg disk name).1, (get_vector_store reg disk name).2) ∧
    (reg.find? (fun p => p.1 == name) = none →
      get_vector_store reg disk name =
        (VectorStore.init name disk, (name, VectorStore.init name disk) :: reg)) ∧
    (∀ c, reg.find? (fun p => p.1 == name) = some c →
      get_vector_store reg disk name = (c.2, reg)) ∧
    (reg.find? (fun p => p.1 == name) = none →
      disk.find? (fun p => p.1 == name) = none →
      (get_vector_store reg disk name).1.get_collection_count = 0) := by
  cases h : reg.find? (fun p => p.1 == name) with
  | none =>
    refine ⟨?_, fun _ => by simp [get_vector_store, h], ?_, ?_⟩
    · simp [get_vector_store, h, List.find?]
    · intro c hc
      cases hc
    · intro _ hdisk
      simp [get_vector_store, h, VectorStore.init, Disk.filesFor, hdisk,
        loadIndex, FileState.isExisting, VectorStore.get_collection_count]
  | some c =>
    refine ⟨?_, ?_, ?_, ?_⟩
    · simp [get_vector_store, h]
    · intro hn
      cases hn
    · intro c' hc'
      cases hc'
      simp [get_vector_store, h]
    · intro hn
      cases hn
  
/-- Witness for `get_vector_store_spec`: on an empty cache and empty disk,
`get_vector_store "default"` succeeds with an empty collection and a repeated
call returns the same store and cache. -/
theorem get_vector_store_spec_witness :
    get_vector_store (get_vector_store [] [] "default").2 [] "default" =
      ((get_vector_store [] [] "default").1,
        (get_vector_store [] [] "default").2) ∧
    (get_vector_store [] [] "default").1.get_collection_count = 0 :=
  ⟨(get_vector_store_spec [] [] "default").1,
   (get_vector_store_spec [] [] "default").2.2.2 rfl rfl⟩

/-- C10: when a collection's on-disk artifacts exist but cannot be
deserialized (either the index file or the metadata sidecar), constructing
the `VectorStore` does not raise: loading falls back to a fresh empty index
with empty metadata and document stores, so the collection loads with
count `0`. -/
theorem init_corrupt_artifacts_loads_empty (name : String) (disk : Disk)
    (h : (disk.filesFor name).indexFile = .corrupt ∨
         (disk.filesFor name).metaFile = .corrupt) :
    VectorStore.init name disk = ⟨name, 384, ⟨384, []⟩, [], []⟩ ∧
    (VectorStore.init name disk).get_collection_count = 0 := by
  have hl : loadIndex 384 (disk.filesFor name) = (⟨384, []⟩, [], []) := by
    rcases h with h | h
    · cases hm : (disk.filesFor name).metaFile <;>
        simp [loadIndex, h, hm, FileState.isExisting]
    · cases hi : (disk.filesFor name).indexFile <;>
        simp [loadIndex, h, hi, FileState.isExisting]
  constructor
  · simp [VectorStore.init, hl]
  · simp [VectorStore.init, hl, VectorStore.get_collection_count]

/-- Witness for `init_corrupt_artifacts_loads_empty`: a disk holding a
readable pkl but an unreadable index file for `"c"` loads as an empty
collection. -/
theorem init_corrupt_artifacts_loads_empty_witness :
    (Disk.filesFor [("c", ⟨FileState.corrupt, FileState.good ([md2], ["tb"])⟩)]
        "c").indexFile = FileState.corrupt ∧
    VectorStore.init "c" [("c", ⟨.corrupt, .good ([md2], ["tb"])⟩)] =
      ⟨"c", 384, ⟨384, []⟩, [], []⟩ :=
  ⟨by decide,
   (init_corrupt_artifacts_loads_empty "c" _ (Or.inl (by decide))).1⟩

theorem mem_remainingIndices {ms : List Metadata} {docId : String} {i : Nat} :
    i ∈ remainingIndices ms docId ↔
      i < ms.length ∧ i ∉ matchingIndices ms docId := by
  unfold remainingIndices
  simp [List.mem_filter, List.mem_range]

theorem delete_document_clears_metadata (vs : VectorStore)
    (f : CollectionFiles) (docId : String) (vs' : VectorStore)
    (f' : CollectionFiles) (n : Nat)
    (h : delete_document vs f docId = (vs', f', .ok n)) :
    ∀ md ∈ vs'.metadata_store, ¬ md.document_id = some docId := by
  unfold delete_document at h
  by_cases hms : vs.metadata_store = []
  · rw [if_pos hms] at h
    simp at h
  · rw [if_neg hms] at h
    by_cases hmi : matchingIndices vs.metadata_store docId = []
    · rw [if_pos hmi] at h
      simp at h
    · rw [if_neg hmi] at h
      by_cases hr : remainingIndices vs.metadata_store docId = []
      · rw [if_pos hr, reset_collection_eq] at h
        simp only [Prod.mk.injEq] at h
        obtain ⟨hvs, -, -⟩ := h
        subst hvs
        intro md hmd
        simp [VectorStore.emptied] at hmd
      · rw [if_neg hr] at h
        cases hv : mapOpt (fun i => vs.index.vecs.get? i)
            (remainingIndices vs.metadata_store docId) with
        | none => rw [hv] at h; simp at h
        | some rvecs =>
          cases hm : mapOpt (fun i => vs.metadata_store.get? i)
              (remainingIndices vs.metadata_store docId) with
          | none => rw [hv, hm] at h; simp at h
          | some rmd =>
            rw [hv, hm] at h
            simp only [Prod.mk.injEq] at h
            obtain ⟨hvs, -, -⟩ := h
            subst hvs
            intro md hmd hdoc
            obtain ⟨i, hi, hget⟩ := mapOpt_mem _ hm md hmd
            rcases mem_remainingIndices.mp hi with ⟨-, hnotin⟩
            exact hnotin (mem_matchingIndices.mpr ⟨md, hget, hdoc⟩)

theorem query_metadatas_from_store (vs : VectorStore) (q : Vec) (k : Int)
    (res : QueryResult) (h : vs.query q k = some res) :
    ∀ inner ∈ res.metadatas, ∀ md ∈ inner, md ∈ vs.metadata_store := by
  unfold VectorStore.query at h
  by_cases h0 : vs.index.vecs.length = 0
  · rw [if_pos h0] at h
    simp only [Option.some.injEq] at h
    subst h
    intro inner hinner md hmd
    simp only [List.mem_singleton] at hinner
    subst hinner
    cases hmd
  · rw [if_neg h0] at h
    cases hs : vs.index.search q (min k (vs.index.vecs.length : Int)) with
    | none => rw [hs] at h; simp at h
    | some ranked =>
      rw [hs] at h
      dsimp only [] at h
      cases hd : mapOpt (fun p => vs.document_store.get? p.2) ranked with
      | none => rw [hd] at h; simp at h
      | some docs =>
        cases hm : mapOpt (fun p => vs.metadata_store.get? p.2) ranked with
        | none => rw [hd, hm] at h; simp at h
        | some metas =>
          rw [hd, hm] at h
          simp only [Option.some.injEq] at h
          subst h
          intro inner hinner md hmd
          simp only [List.mem_singleton] at hinner
          subst hinner
          obtain ⟨p, -, hget⟩ := mapOpt_mem _ hm md hmd
          exact List.get?_mem hget

/-- C3: once `delete_document` has succeeded for `docId`, no result of any
query on the resulting collection — whatever the query embedding and whatever
`n_results` — contains a chunk whose `document_id` equals `docId`. -/
theorem delete_then_query_excludes (vs : VectorStore) (f : CollectionFiles)
    (docId : String) (vs' : VectorStore) (f' : CollectionFiles) (n : Nat)
    (hdel : delete_document vs f docId = (vs', f', .ok n))
    (q : Vec) (k : Int) (res : QueryResult)
    (hq : vs'.query q k = some res) :
    ∀ inner ∈ res.metadatas, ∀ md ∈ inner, ¬ md.document_id = some docId :=
  fun inner hinner md hmd =>
    delete_document_clears_metadata vs f docId vs' f' n hdel md
      (query_metadatas_from_store vs' q k res hq inner hinner md hmd)

unseal Rat.add Rat.mul Rat.sub in
/-- Witness for `delete_then_query_excludes`: deleting `"d1"` from the
two-chunk collection and querying with the survivor's embedding yields a
result whose metadata record does not carry `document_id = "d1"`. -/
theorem delete_then_query_excludes_witness :
    delete_document
        (⟨"w", 384, ⟨2, [e1, e2]⟩, [md1, md2], ["t1", "t2"]⟩ : VectorStore)
        ⟨.missing, .missing⟩ "d1" =
      (⟨"w", 384, ⟨2, [e2]⟩, [md2], ["t1", "t2"]⟩,
        ⟨.good ⟨2, [e2]⟩, .good ([md2], ["t1", "t2"])⟩, .ok 1) ∧
    (⟨"w", 384, ⟨2, [e2]⟩, [md2], ["t1", "t2"]⟩ : VectorStore).query e2 3 =
      some ⟨[["t1"]], [[md2]], [[0]]⟩ ∧
    ¬ md2.document_id = some "d1" :=
  ⟨by decide, by decide,
    delete_then_query_excludes
      ⟨"w", 384, ⟨2, [e1, e2]⟩, [md1, md2], ["t1", "t2"]⟩
      ⟨.missing, .missing⟩ "d1"
      ⟨"w", 384, ⟨2, [e2]⟩, [md2], ["t1", "t2"]⟩
      ⟨.good ⟨2, [e2]⟩, .good ([md2], ["t1", "t2"])⟩ 1 (by decide)
      e2 3 ⟨[["t1"]], [[md2]], [[0]]⟩ (by decide)
      [md2] (by decide) md2 (by decide)⟩

/-- C6: with a dimension-correct query embedding and stores at least as long
as the index, `query` succeeds and returns exactly the ranked list the search
produces: its length is `min(k, N)` (non-positive `k` coerced to zero), it is
strictly sorted by ascending squared L2 distance with ties broken by ascending
position, every entry's distance is the true squared distance of its
position's stored vector, and the returned texts, metadata records and
distances all follow that one order. -/
theorem query_ordering (vs : VectorStore) (q : Vec) (k : Int)
    (hq : q.length = vs.index.d)
    (hd : vs.index.vecs.length ≤ vs.document_store.length)
    (hm : vs.index.vecs.length ≤ vs.metadata_store.length) :
    ∃ ranked : List (ℚ × Nat),
      vs.query q k =
        some ⟨[ranked.map (fun p => vs.document_store.getD p.2 "")],
              [ranked.map (fun p => vs.metadata_store.getD p.2 default)],
              [ranked.map Prod.fst]⟩ ∧
      ranked.length = (min k (vs.index.vecs.length : Int)).toNat ∧
      List.Pairwise distRankLT ranked ∧
      ∀ p ∈ ranked, p.2 < vs.index.vecs.length ∧
        p.1 = sqDist q (vs.index.vecs.getD p.2 []) := by
  by_cases h0 : vs.index.vecs.length = 0
  · refine ⟨[], ?_, ?_, List.Pairwise.nil, ?_⟩
    · simp [VectorStore.query, h0]
    · simp only [List.length_nil, h0]
      omega
    · intro p hp
      cases hp
  · set ranked := (List.insertionSort distRankLE (scoredOf vs.index q)).take
      (min k (vs.index.vecs.length : Int)).toNat with hranked
    have hperm := List.perm_insertionSort distRankLE (scoredOf vs.index q)
    have hsort := List.sorted_insertionSort distRankLE (scoredOf vs.index q)
    have hscored_len : (scoredOf vs.index q).length = vs.index.vecs.length := by
      simp [scoredOf]
    have hsorted_len :
        (List.insertionSort distRankLE (scoredOf vs.index q)).length =
          vs.index.vecs.length := by
      rw [List.length_insertionSort]
      exact hscored_len
    have hmem : ∀ p ∈ ranked, p.2 < vs.index.vecs.length ∧
        vs.index.vecs.get? p.2 = some (vs.index.vecs.getD p.2 []) ∧
        p.1 = sqDist q (vs.index.vecs.getD p.2 []) := by
      intro p hp
      have hp1 : p ∈ List.insertionSort distRankLE (scoredOf vs.index q) :=
        List.take_subset _ _ hp
      have hp2 : p ∈ scoredOf vs.index q := hperm.subset hp1
      obtain ⟨⟨i, v⟩, hiv, rfl⟩ := List.mem_map.mp hp2
      have hget : vs.index.vecs[i]? = some v :=
        List.mk_mem_enum_iff_getElem?.mp hiv
      have hget' : vs.index.vecs.get? i = some v := by
        simpa [List.get?_eq_getElem?] using hget
      have hlen : i < vs.index.vecs.length := by
        rcases List.get?_eq_some.mp hget' with ⟨hw, -⟩
        exact hw
      have hgd : vs.index.vecs.getD i [] = v := by
        rw [List.getD_eq_get?, hget']
        rfl
      refine ⟨hlen, ?_, ?_⟩
      · rw [hgd]
        exact hget'
      · rw [hgd]
    have hlen : ranked.length = (min k (vs.index.vecs.length : Int)).toNat := by
      rw [hranked, List.length_take, hsorted_len]
      omega
    have hple : List.Pairwise distRankLE ranked :=
      List.Pairwise.sublist (List.take_sublist _ _) hsort
    have hsnd : (scoredOf vs.index q).map Prod.snd =
        List.range vs.index.vecs.length := by
      simp only [scoredOf, List.map_map]
      exact List.enum_map_fst _
    have hnodup : (ranked.map Prod.snd).Nodup := by
      have h1 : ((List.insertionSort distRankLE
          (scoredOf vs.index q)).map Prod.snd).Nodup := by
        rw [(hperm.map Prod.snd).nodup_iff, hsnd]
        exact List.nodup_range _
      exact List.Nodup.sublist (List.Sublist.map Prod.snd (List.take_sublist _ _)) h1
    have hpne : List.Pairwise (fun a b : ℚ × Nat => a.2 ≠ b.2) ranked :=
      List.pairwise_map.mp hnodup
    have hplt : List.Pairwise distRankLT ranked := by
      refine (pairwise_and_of hple hpne).imp ?_
      rintro a b ⟨hle, hne⟩
      rcases hle with h | ⟨heq, hle2⟩
      · exact Or.inl h
      · exact Or.inr ⟨heq, lt_of_le_of_ne hle2 hne⟩
    have hdocs : mapOpt (fun p => vs.document_store.get? p.2) ranked =
        some (ranked.map (fun p => vs.document_store.getD p.2 "")) := by
      apply mapOpt_eq_some_map
      intro p hp
      have hlt : p.2 < vs.document_store.length :=
        lt_of_lt_of_le (hmem p hp).1 hd
      rw [List.getD_eq_get?]
      cases hg : vs.document_store.get? p.2 with
      | none =>
        exfalso
        have := List.get?_eq_none.mp hg
        omega
      | some x => rfl
    have hmetas : mapOpt (fun p => vs.metadata_store.get? p.2) ranked =
        some (ranked.map (fun p => vs.metadata_store.getD p.2 default)) := by
      apply mapOpt_eq_some_map
      intro p hp
      have hlt : p.2 < vs.metadata_store.length :=
        lt_of_lt_of_le (hmem p hp).1 hm
      rw [List.getD_eq_get?]
      cases hg : vs.metadata_store.get? p.2 with
      | none =>
        exfalso
        have := List.get?_eq_none.mp hg
        omega
      | some x => rfl
    refine ⟨ranked, ?_, hlen, hplt,
      fun p hp => ⟨(hmem p hp).1, (hmem p hp).2.2⟩⟩
    unfold VectorStore.query IndexFlatL2.search
    rw [if_neg h0, if_pos hq, ← hranked]
    dsimp only []
    rw [hdocs, hmetas]

/-- Witness for `query_ordering`: the two-vector collection with aligned
stores satisfies the hypotheses, and querying it with `e2` and `k = 5`
admits the stated ranked result. -/
theorem query_ordering_witness :
    e2.length =
      (⟨"w", 384, ⟨2, [e1, e2]⟩, [md1, md2], ["t1", "t2"]⟩ :
        VectorStore).index.d ∧
    (∃ ranked : List (ℚ × Nat),
      (⟨"w", 384, ⟨2, [e1, e2]⟩, [md1, md2], ["t1", "t2"]⟩ :
          VectorStore).query e2 5 =
        some ⟨[ranked.map (fun p =>
                (⟨"w", 384, ⟨2, [e1, e2]⟩, [md1, md2], ["t1", "t2"]⟩ :
                  VectorStore).document_store.getD p.2 "")],
              [ranked.map (fun p =>
                (⟨"w", 384, ⟨2, [e1, e2]⟩, [md1, md2], ["t1", "t2"]⟩ :
                  VectorStore).metadata_store.getD p.2 default)],
              [ranked.map Prod.fst]⟩ ∧
      ranked.length = (min 5 ((2 : Nat) : Int)).toNat ∧
      List.Pairwise distRankLT ranked ∧
      ∀ p ∈ ranked, p.2 < 2 ∧
        p.1 = sqDist e2
          ((⟨"w", 384, ⟨2, [e1, e2]⟩, [md1, md2], ["t1", "t2"]⟩ :
            VectorStore).index.vecs.getD p.2 [])) :=
  ⟨by decide,
    query_ordering
      ⟨"w", 384, ⟨2, [e1, e2]⟩, [md1, md2], ["t1", "t2"]⟩ e2 5
      (by decide) (by decide) (by decide)⟩
